import Mathlib

/-!
Shallow embedding of the myst-preview CLI (src/myst_preview/cli.py).

The tool stages a single document into a temporary workspace, finds a free
TCP port, launches an external renderer, and guarantees teardown of both the
child process and the workspace on every exit path.  Effects are modelled
explicitly: the filesystem as association lists, sockets as a predicate on
port numbers threaded with a list of currently open sockets, the child
process as an optional handle, and process exit as a returned code.
-/

namespace MystPreview

/-- `SUPPORTED_EXTENSIONS` from cli.py (a Python set literal, kept in
source order as a list; membership is what matters). -/
def SUPPORTED_EXTENSIONS : List String := [".md", ".ipynb", ".rst", ".tex"]

/-- The sorted, comma-joined extension list used in the unsupported-type
error message: Python writes `, `.join(sorted(SUPPORTED_EXTENSIONS)). -/
def sortedExtensionList : String :=
  String.intercalate ", " (SUPPORTED_EXTENSIONS.mergeSort (fun a b => a ≤ b))

/-- The argument-validation prefix of `main` (cli.py lines 119-129):
given the resolved path's existence and its suffix, either accept or
report to standard error and exit 1.  `Except.error (msg, code)` models
printing `msg` to stderr followed by `sys.exit(code)`. -/
def validate (fileArg : String) (srcExists : Bool) (suffix : String) :
    Except (String × Nat) Unit :=
  if srcExists = false then
    Except.error ("Error: " ++ fileArg ++ " does not exist", 1)
  else if SUPPORTED_EXTENSIONS.contains suffix = false then
    Except.error
      ("Error: unsupported file type " ++ suffix ++ ". Supported: " ++
        sortedExtensionList, 1)
  else
    Except.ok ()

/-!  ## Port allocator (`find_free_port`, cli.py lines 28-43)

A socket is modelled by the port it would bind; `bindable p` says the OS
would let a listening socket bind port `p` on the wildcard address.  Each
loop iteration opens a fresh socket inside a `with` block (pushed onto the
open-socket list) and the `with` block closes it on every path (removed
again before the iteration ends or the port is returned). -/

/-- The `for port in range(start, end + 1)` loop body of `find_free_port`,
threading the list of currently open sockets. -/
def bindFirst (bindable : Nat → Bool) (socks : List Nat) :
    List Nat → Option Nat × List Nat
  | [] => (none, socks)
  | p :: ps =>
    -- `with socket.socket(...) as s:` opens a socket ...
    let opened := p :: socks
    if bindable p then
      -- bind succeeded: the `with` block closes the socket, the port returns
      (some p, opened.erase p)
    else
      -- OSError: the `with` block closes the socket, the loop continues
      bindFirst bindable (opened.erase p) ps

/-- `if end == 0: end = start + 50` at the head of `find_free_port`. -/
def ffp_stop (start stop0 : Nat) : Nat :=
  if stop0 = 0 then start + 50 else stop0

/-- `find_free_port(start, end=0)`: when `end` is 0 it defaults to
`start + 50`; candidates are `range(start, end + 1)`; exhaustion prints a
range-specific message to stderr and calls `sys.exit(1)` (the `Except.error`
branch).  The second component is the set of sockets still open when the
function ends. -/
def find_free_port (bindable : Nat → Bool) (start stop0 : Nat) :
    Except (String × Nat) Nat × List Nat :=
  match bindFirst bindable [] (List.range' start (ffp_stop start stop0 + 1 - start)) with
  | (some p, socks) => (Except.ok p, socks)
  | (none, socks) =>
    (Except.error
      ("Error: no free port found in range " ++ toString start ++ "-" ++
        toString (ffp_stop start stop0), 1), socks)

/-! ### Port allocator lemmas -/

theorem bindFirst_socks (bindable : Nat → Bool) :
    ∀ (l : List Nat) (socks : List Nat),
      (bindFirst bindable socks l).2 = socks := by
  intro l
  induction l with
  | nil => intro socks; rfl
  | cons p ps ih =>
    intro socks
    simp only [bindFirst, List.erase_cons_head]
    split
    · rfl
    · exact ih socks

theorem bindFirst_mem (bindable : Nat → Bool) :
    ∀ (l : List Nat) (socks : List Nat) (p : Nat),
      (bindFirst bindable socks l).1 = some p → p ∈ l ∧ bindable p = true := by
  intro l
  induction l with
  | nil => intro socks p h; exact absurd h (by simp [bindFirst])
  | cons q qs ih =>
    intro socks p h
    simp only [bindFirst, List.erase_cons_head] at h
    by_cases hb : bindable q = true
    · simp [hb] at h
      subst h
      exact ⟨List.mem_cons_self q qs, hb⟩
    · simp [hb] at h
      rcases ih socks p h with ⟨hm, hbp⟩
      exact ⟨List.mem_cons_of_mem q hm, hbp⟩

theorem bindFirst_range_first (bindable : Nat → Bool) :
    ∀ (len start : Nat) (socks : List Nat) (p : Nat),
      (bindFirst bindable socks (List.range' start len)).1 = some p →
      ∀ q, start ≤ q → q < p → bindable q = false := by
  intro len
  induction len with
  | zero => intro start socks p h; exact absurd h (by simp [List.range', bindFirst])
  | succ n ih =>
    intro start socks p h q hsq hqp
    rw [List.range'] at h
    simp only [bindFirst, List.erase_cons_head] at h
    by_cases hb : bindable start = true
    · simp [hb] at h
      omega
    · simp [hb] at h
      rcases Nat.eq_or_lt_of_le hsq with hq | hq
      · subst hq; exact eq_false_of_ne_true hb
      · exact ih (start + 1) socks p h q hq hqp

theorem bindFirst_none (bindable : Nat → Bool) :
    ∀ (l : List Nat) (socks : List Nat),
      (∀ q ∈ l, bindable q = false) → (bindFirst bindable socks l).1 = none := by
  intro l
  induction l with
  | nil => intro socks _; rfl
  | cons q qs ih =>
    intro socks hall
    simp only [bindFirst, List.erase_cons_head]
    have hq : bindable q = false := hall q (List.mem_cons_self q qs)
    simp only [hq]
    simp only [Bool.false_eq_true, if_false]
    exact ih socks fun r hr => hall r (List.mem_cons_of_mem q hr)

/-! ## Workspace stager (cli.py lines 156-170)

The source directory and the workspace are association lists from entry
names to entries.  A workspace entry is either a symbolic link into the
source directory or a regular file; the source directory holds plain
contents (an abstraction covering files and subdirectories alike, since
the stager never looks inside them). -/

inductive WsEntry
  | link (target : String)
  | file (content : String)
deriving DecidableEq, Repr

/-- The source directory: entry names with their contents. -/
abbrev SrcDir := List (String × String)

/-- The temporary workspace created by `mkdtemp`. -/
abbrev Workspace := List (String × WsEntry)

/-- `Path.exists()` on a workspace path: follows symbolic links, so a
dangling link (target absent from the source directory) does not exist. -/
def path_exists (src : SrcDir) (ws : Workspace) (n : String) : Bool :=
  match ws.lookup n with
  | some (WsEntry.file _) => true
  | some (WsEntry.link t) => (src.lookup t).isSome
  | none => false

/-- `name.startswith(".")`: the hidden-file marker test, expressed on the
character list (same predicate: the first character is a dot). -/
def hiddenName (n : String) : Bool := n.data.head? == some '.'

/-- The `for item in source_dir.iterdir()` staging loop (cli.py 157-162):
skip names starting with the hidden marker, skip names whose target
already exists in the workspace, link the rest.  `none` models
`os.symlink` raising `FileExistsError` (an entry of that name present even
though `exists()` was false, i.e. a dangling link), which would escape to
the top-level handler. -/
def symlink_items (src : SrcDir) : List String → Workspace → Option Workspace
  | [], ws => some ws
  | n :: rest, ws =>
    if hiddenName n then symlink_items src rest ws
    else if path_exists src ws n then symlink_items src rest ws
    else if (ws.lookup n).isSome then none
    else symlink_items src rest (ws ++ [(n, WsEntry.link n)])

/-- `MYST_YML_TEMPLATE.format(theme=..., slug=...)` from cli.py 18-25. -/
def MYST_YML_TEMPLATE (theme slug : String) : String :=
  "version: 1\nsite:\n  template: " ++ theme ++
    "\nproject:\n  toc:\n    - file: " ++ slug ++ "\n"

/-- `Path.is_symlink()` on a workspace entry (true also for dangling
links). -/
def is_symlink (ws : Workspace) (n : String) : Bool :=
  match ws.lookup n with
  | some (WsEntry.link _) => true
  | _ => false

/-- `Path.unlink()`: remove the workspace entry itself (never its
target). -/
def unlink (ws : Workspace) (n : String) : Workspace :=
  ws.filter (fun e => !(e.1 == n))

/-- `Path.write_text` inside the workspace: opening a symbolic link for
writing writes the link's target, a file of the source directory (created
there if the link dangles); otherwise the workspace entry becomes a regular
file with the given content. -/
def write_text (src : SrcDir) (ws : Workspace) (n content : String) :
    SrcDir × Workspace :=
  match ws.lookup n with
  | some (WsEntry.link t) =>
    if (src.lookup t).isSome then
      (src.map (fun e => if e.1 = t then (e.1, content) else e), ws)
    else
      (src ++ [(t, content)], ws)
  | some (WsEntry.file _) =>
    (src, ws.map (fun e => if e.1 = n then (n, WsEntry.file content) else e))
  | none => (src, ws ++ [(n, WsEntry.file content)])

/-- cli.py 164-170: unlink a symlinked `myst.yml`, then write the rendered
template into the workspace. -/
def write_myst_yml (theme slug : String) (src : SrcDir) (ws : Workspace) :
    SrcDir × Workspace :=
  write_text src
    (if is_symlink ws "myst.yml" then unlink ws "myst.yml" else ws)
    "myst.yml" (MYST_YML_TEMPLATE theme slug)

/-- The whole staging phase of `main` (cli.py 156-170), started on the
fresh empty workspace returned by `mkdtemp`: the final source directory and
workspace, or `none` when a filesystem exception escapes to the handler. -/
def stage (theme slug : String) (src : SrcDir) : Option (SrcDir × Workspace) :=
  match symlink_items src (src.map Prod.fst) [] with
  | none => none
  | some ws => some (write_myst_yml theme slug src ws)

/-! ### Association-list lemmas -/

theorem lookup_append_left {β : Type} (l1 l2 : List (String × β)) (n : String)
    (e : β) (h : l1.lookup n = some e) : (l1 ++ l2).lookup n = some e := by
  induction l1 with
  | nil => simp [List.lookup] at h
  | cons a rest ih =>
    rcases a with ⟨k, v⟩
    simp only [List.lookup, List.cons_append] at h ⊢
    by_cases hk : (n == k) = true
    · simpa [hk] using h
    · simp only [hk, Bool.false_eq_true, if_false] at h ⊢
      exact ih h

theorem lookup_append_right {β : Type} (l1 l2 : List (String × β)) (n : String)
    (h : l1.lookup n = none) : (l1 ++ l2).lookup n = l2.lookup n := by
  induction l1 with
  | nil => simp
  | cons a rest ih =>
    rcases a with ⟨k, v⟩
    simp only [List.lookup, List.cons_append] at h ⊢
    by_cases hk : (n == k) = true
    · simp [hk] at h
    · simp only [hk, Bool.false_eq_true, if_false] at h ⊢
      exact ih h

theorem lookup_mem {β : Type} (l : List (String × β)) (n : String) (e : β)
    (h : l.lookup n = some e) : (n, e) ∈ l := by
  induction l with
  | nil => simp [List.lookup] at h
  | cons a rest ih =>
    rcases a with ⟨k, v⟩
    simp only [List.lookup] at h
    by_cases hk : (n == k) = true
    · simp [hk] at h
      have : n = k := by simpa using hk
      subst this
      subst h
      exact List.mem_cons_self _ _
    · simp only [hk, Bool.false_eq_true, if_false] at h
      exact List.mem_cons_of_mem _ (ih h)

theorem lookup_isSome_of_mem_fst {β : Type} (l : List (String × β)) (n : String)
    (h : n ∈ l.map Prod.fst) : (l.lookup n).isSome = true := by
  induction l with
  | nil => simp at h
  | cons a rest ih =>
    rcases a with ⟨k, v⟩
    simp only [List.map, List.mem_cons] at h
    simp only [List.lookup]
    by_cases hk : (n == k) = true
    · simp [hk]
    · have hne : n ≠ k := by simpa using hk
      rcases h with h | h
      · exact absurd h hne
      · simp only [hk, Bool.false_eq_true, if_false]
        exact ih h

theorem lookup_unlink (ws : Workspace) (n : String) :
    (unlink ws n).lookup n = none := by
  induction ws with
  | nil => rfl
  | cons a rest ih =>
    rcases a with ⟨k, v⟩
    by_cases hk : (k == n) = true
    · have hstep : unlink ((k, v) :: rest) n = unlink rest n := by
        simp [unlink, List.filter_cons, hk]
      rw [hstep]
      exact ih
    · have hstep : unlink ((k, v) :: rest) n = (k, v) :: unlink rest n := by
        simp [unlink, List.filter_cons, hk]
      have hnk : (n == k) = false := by
        have hkn : k ≠ n := by simpa using hk
        simpa using fun hn => hkn hn.symm
      rw [hstep]
      simpa [List.lookup, hnk] using ih

theorem lookup_append_single_ne (ws : Workspace) (m n : String) (e : WsEntry)
    (h : n ≠ m) : (ws ++ [(m, e)]).lookup n = ws.lookup n := by
  cases hw : ws.lookup n with
  | some v => exact lookup_append_left ws [(m, e)] n v hw
  | none =>
    rw [lookup_append_right ws [(m, e)] n hw]
    have hnm : (n == m) = false := by simpa using h
    simp [List.lookup, hnm, hw]

/-! ### Staging invariant: every workspace entry the loop creates is a
self-named symbolic link whose target exists in the source directory. -/

def linksOnly (src : SrcDir) (ws : Workspace) : Prop :=
  ∀ p ∈ ws, p.2 = WsEntry.link p.1 ∧ (src.lookup p.1).isSome = true

theorem symlink_items_spec (src : SrcDir) :
    ∀ (names : List String) (ws : Workspace),
      linksOnly src ws →
      (∀ n ∈ names, (src.lookup n).isSome = true) →
      ∃ ws', symlink_items src names ws = some ws' ∧
        linksOnly src ws' ∧
        (∀ n e, ws.lookup n = some e → ws'.lookup n = some e) ∧
        (∀ n, n ∈ names → hiddenName n = false →
          (ws'.lookup n).isSome = true) ∧
        (∀ n, hiddenName n = true → ws'.lookup n = ws.lookup n) := by
  intro names
  induction names with
  | nil =>
    intro ws hinv _
    exact ⟨ws, rfl, hinv, fun _ _ h => h, fun n hn => absurd hn (by simp),
      fun _ _ => rfl⟩
  | cons n rest ih =>
    intro ws hinv hsrc
    have hsrcn : (src.lookup n).isSome = true := hsrc n (List.mem_cons_self _ _)
    have hsrcrest : ∀ m ∈ rest, (src.lookup m).isSome = true :=
      fun m hm => hsrc m (List.mem_cons_of_mem _ hm)
    by_cases hhid : hiddenName n = true
    · rcases ih ws hinv hsrcrest with ⟨ws', heq, hinv', hpres, hmem, hhidden⟩
      refine ⟨ws', ?_, hinv', hpres, ?_, hhidden⟩
      · simpa [symlink_items, hhid] using heq
      · intro m hm hmh
        rcases List.mem_cons.mp hm with rfl | hm
        · exact absurd hhid (by simp [hmh])
        · exact hmem m hm hmh
    · by_cases hex : path_exists src ws n = true
      · rcases ih ws hinv hsrcrest with ⟨ws', heq, hinv', hpres, hmem, hhidden⟩
        refine ⟨ws', ?_, hinv', hpres, ?_, hhidden⟩
        · simpa [symlink_items, hhid, hex] using heq
        · intro m hm hmh
          rcases List.mem_cons.mp hm with rfl | hm
          · -- the entry already existed: it is preserved
            unfold path_exists at hex
            cases hw : ws.lookup m with
            | none => rw [hw] at hex; simp at hex
            | some e => simp [hpres m e hw]
          · exact hmem m hm hmh
      · have hnone : ws.lookup n = none := by
          cases hw : ws.lookup n with
          | none => rfl
          | some e =>
            rcases hinv _ (lookup_mem ws n e hw) with ⟨he, hs⟩
            have he' : e = WsEntry.link n := by simpa using he
            subst he'
            exfalso
            apply hex
            unfold path_exists
            rw [hw]
            exact hs
        have hinv2 : linksOnly src (ws ++ [(n, WsEntry.link n)]) := by
          intro p hp
          rcases List.mem_append.mp hp with hp | hp
          · exact hinv p hp
          · rcases List.mem_singleton.mp hp with rfl
            exact ⟨rfl, hsrcn⟩
        rcases ih (ws ++ [(n, WsEntry.link n)]) hinv2 hsrcrest with
          ⟨ws', heq, hinv', hpres, hmem, hhidden⟩
        refine ⟨ws', ?_, hinv', ?_, ?_, ?_⟩
        · simpa [symlink_items, hhid, hex, hnone] using heq
        · intro m e hm
          exact hpres m e (lookup_append_left ws [(n, WsEntry.link n)] m e hm)
        · intro m hm hmh
          rcases List.mem_cons.mp hm with rfl | hm
          · have : (ws ++ [(m, WsEntry.link m)]).lookup m =
                some (WsEntry.link m) := by
              rw [lookup_append_right ws [(m, WsEntry.link m)] m hnone]
              simp [List.lookup]
            simp [hpres m _ this]
          · exact hmem m hm hmh
        · intro m hm
          rw [hhidden m hm]
          exact lookup_append_single_ne ws n m (WsEntry.link n)
            (by intro h; subst h; simp [hm] at hhid)

/-! ### Claim theorems for the port allocator and validation -/

/-- C4: when `find_free_port start stop0` returns a port `p`, then `p` lies
in `[start, stop]` where `stop` is `stop0` (or `start + 50` when `stop0 = 0`),
`p` is bindable, every candidate strictly before `p` in the ascending scan
from `start` is not bindable, and no socket remains open on return. -/
theorem find_free_port_C4 (bindable : Nat → Bool) (start stop0 p : Nat)
    (h : (find_free_port bindable start stop0).1 = Except.ok p) :
    start ≤ p ∧ p ≤ ffp_stop start stop0 ∧
    bindable p = true ∧
    (∀ q, start ≤ q → q < p → bindable q = false) ∧
    (find_free_port bindable start stop0).2 = [] := by
  unfold find_free_port at h ⊢
  rcases hbf : bindFirst bindable []
      (List.range' start (ffp_stop start stop0 + 1 - start))
    with ⟨r, socks⟩
  rw [hbf] at h
  cases r with
  | none => exact Except.noConfusion h
  | some q =>
    have h' : (Except.ok q : Except (String × Nat) Nat) = Except.ok p := h
    have hqp : q = p := by cases h'; rfl
    subst hqp
    have h1 : (bindFirst bindable []
        (List.range' start (ffp_stop start stop0 + 1 - start))).1 = some q := by
      rw [hbf]
    rcases bindFirst_mem bindable _ [] q h1 with ⟨hmem, hbp⟩
    rw [List.mem_range'_1] at hmem
    have hsocks : socks = [] := by
      have := bindFirst_socks bindable
        (List.range' start (ffp_stop start stop0 + 1 - start)) []
      rw [hbf] at this
      exact this
    exact ⟨hmem.1, by omega, hbp,
      bindFirst_range_first bindable _ start [] q h1, hsocks⟩

/-- C4 witness: with only port 3001 bindable, the scan from 3000 returns
3001, inside the range, with the scan having skipped 3000 and all sockets
closed. -/
theorem find_free_port_C4_witness :
    (find_free_port (fun n => n == 3001) 3000 0).1 = Except.ok 3001 ∧
    3000 ≤ 3001 ∧
    (3001 : Nat) ≤ ffp_stop 3000 0 ∧
    (fun n => n == 3001) 3001 = true ∧
    (find_free_port (fun n => n == 3001) 3000 0).2 = [] := by
  have h : (find_free_port (fun n => n == 3001) 3000 0).1 = Except.ok 3001 := by rfl
  have hc := find_free_port_C4 (fun n => n == 3001) 3000 0 3001 h
  exact ⟨h, hc.1, hc.2.1, hc.2.2.1, hc.2.2.2.2⟩

/-- C8: when no port in the scanned range is bindable, `find_free_port`
does not return a port: it produces the range-naming stderr message and the
nonzero exit code 1 (the `sys.exit(1)` path). -/
theorem find_free_port_C8 (bindable : Nat → Bool) (start stop0 : Nat)
    (h : ∀ q, start ≤ q → q ≤ ffp_stop start stop0 → bindable q = false) :
    (find_free_port bindable start stop0).1 =
      Except.error
        ("Error: no free port found in range " ++ toString start ++ "-" ++
          toString (ffp_stop start stop0), 1) := by
  unfold find_free_port
  have hnone : (bindFirst bindable []
      (List.range' start (ffp_stop start stop0 + 1 - start))).1 = none := by
    apply bindFirst_none
    intro q hq
    rw [List.mem_range'_1] at hq
    exact h q hq.1 (by omega)
  rcases hbf : bindFirst bindable []
      (List.range' start (ffp_stop start stop0 + 1 - start))
    with ⟨r, socks⟩
  cases r with
  | none => rfl
  | some q =>
    rw [hbf] at hnone
    simp at hnone

/-- C8 witness: with no port bindable at all, scanning from 3000 with the
default range end produces the message naming the range 3000-3050 and exit
code 1. -/
theorem find_free_port_C8_witness :
    (find_free_port (fun _ => false) 3000 0).1 =
      Except.error ("Error: no free port found in range 3000-3050", 1) := by
  have h := find_free_port_C8 (fun _ => false) 3000 0 (fun q _ _ => rfl)
  simpa using h

/-- C7: validation accepts exactly the existing files whose suffix is in
the allow-list; a missing file and an unsupported suffix each produce a
stderr message and exit code 1, in that order of checking. -/
theorem validate_C7 (f s : String) (e : Bool) :
    (validate f e s = Except.ok () ↔
      e = true ∧ SUPPORTED_EXTENSIONS.contains s = true) ∧
    (e = false →
      validate f e s = Except.error ("Error: " ++ f ++ " does not exist", 1)) ∧
    (e = true → SUPPORTED_EXTENSIONS.contains s = false →
      validate f e s = Except.error
        ("Error: unsupported file type " ++ s ++ ". Supported: " ++
          sortedExtensionList, 1)) := by
  unfold validate
  cases e with
  | false => simp
  | true =>
    by_cases hc : SUPPORTED_EXTENSIONS.contains s = true
    · simp [hc]
    · simp [hc]

/-! ### Claim theorems for the workspace stager -/

theorem linksOnly_nil (src : SrcDir) : linksOnly src [] :=
  fun p hp => absurd hp (List.not_mem_nil p)

theorem write_myst_yml_linksOnly (theme slug : String) (src : SrcDir)
    (ws : Workspace) (h : linksOnly src ws) :
    write_myst_yml theme slug src ws =
      (src, (if is_symlink ws "myst.yml" then unlink ws "myst.yml" else ws) ++
        [("myst.yml", WsEntry.file (MYST_YML_TEMPLATE theme slug))]) := by
  have hnone :
      ((if is_symlink ws "myst.yml" then unlink ws "myst.yml" else ws) :
        Workspace).lookup "myst.yml" = none := by
    by_cases hs : is_symlink ws "myst.yml" = true
    · rw [if_pos hs]
      exact lookup_unlink ws "myst.yml"
    · rw [if_neg hs]
      cases hw0 : ws.lookup "myst.yml" with
      | none => rfl
      | some e =>
        exfalso
        apply hs
        rcases h _ (lookup_mem ws _ e hw0) with ⟨he, -⟩
        have he' : e = WsEntry.link "myst.yml" := by simpa using he
        subst he'
        unfold is_symlink
        rw [hw0]
  unfold write_myst_yml write_text
  rw [hnone]

/-- C2: for every theme and slug, staging writes the descriptor: the final
workspace maps `myst.yml` to a regular file (not a link) whose content is
exactly the template with the theme and slug substituted — any symlinked
descriptor inherited from the source directory having been unlinked
first. -/
theorem stage_C2 (theme slug : String) (src : SrcDir) :
    ∃ src2 ws, stage theme slug src = some (src2, ws) ∧
      ws.lookup "myst.yml" =
        some (WsEntry.file (MYST_YML_TEMPLATE theme slug)) := by
  rcases symlink_items_spec src (src.map Prod.fst) [] (linksOnly_nil src)
      (fun n hn => lookup_isSome_of_mem_fst src n hn) with
    ⟨ws0, heq, hinv, -, -, -⟩
  have hw := write_myst_yml_linksOnly theme slug src ws0 hinv
  refine ⟨src,
    (if is_symlink ws0 "myst.yml" then unlink ws0 "myst.yml" else ws0) ++
      [("myst.yml", WsEntry.file (MYST_YML_TEMPLATE theme slug))], ?_, ?_⟩
  · unfold stage
    rw [heq]
    show some (write_myst_yml theme slug src ws0) = _
    rw [hw]
  · have hnone :
        ((if is_symlink ws0 "myst.yml" then unlink ws0 "myst.yml" else ws0) :
          Workspace).lookup "myst.yml" = none := by
      by_cases hs : is_symlink ws0 "myst.yml" = true
      · rw [if_pos hs]
        exact lookup_unlink ws0 "myst.yml"
      · rw [if_neg hs]
        cases hw0 : ws0.lookup "myst.yml" with
        | none => rfl
        | some e =>
          exfalso
          apply hs
          rcases hinv _ (lookup_mem ws0 _ e hw0) with ⟨he, -⟩
          have he' : e = WsEntry.link "myst.yml" := by simpa using he
          subst he'
          unfold is_symlink
          rw [hw0]
    rw [lookup_append_right _ _ _ hnone]
    simp [List.lookup]

/-- C9: staging never mutates the source directory: the source directory
after the whole staging phase (links plus descriptor write, the write
never going through an inherited symbolic link) is exactly the source
directory before it. -/
theorem stage_C9 (theme slug : String) (src : SrcDir) :
    ∃ ws, stage theme slug src = some (src, ws) := by
  rcases symlink_items_spec src (src.map Prod.fst) [] (linksOnly_nil src)
      (fun n hn => lookup_isSome_of_mem_fst src n hn) with
    ⟨ws0, heq, hinv, -, -, -⟩
  have hw := write_myst_yml_linksOnly theme slug src ws0 hinv
  refine ⟨(if is_symlink ws0 "myst.yml" then unlink ws0 "myst.yml" else ws0) ++
      [("myst.yml", WsEntry.file (MYST_YML_TEMPLATE theme slug))], ?_⟩
  unfold stage
  rw [heq]
  show some (write_myst_yml theme slug src ws0) = _
  rw [hw]

/-- C3: after the symlink staging loop over a fresh empty workspace, every
non-hidden name of the source directory is present as a symbolic link (not
a copy) of identical name, and no hidden name is present at all. -/
theorem symlink_items_C3 (src : SrcDir) (ws : Workspace) (n : String)
    (h : symlink_items src (src.map Prod.fst) [] = some ws) :
    (n ∈ src.map Prod.fst → hiddenName n = false →
      ws.lookup n = some (WsEntry.link n)) ∧
    (hiddenName n = true → ws.lookup n = none) := by
  rcases symlink_items_spec src (src.map Prod.fst) [] (linksOnly_nil src)
      (fun m hm => lookup_isSome_of_mem_fst src m hm) with
    ⟨ws', heq, hinv, -, hmem, hhid⟩
  rw [h] at heq
  have hws : ws' = ws := (Option.some.inj heq).symm
  subst hws
  constructor
  · intro hm hnh
    have hs := hmem n hm hnh
    cases hw : ws'.lookup n with
    | none => rw [hw] at hs; simp at hs
    | some e =>
      rcases hinv _ (lookup_mem ws' n e hw) with ⟨he, -⟩
      have he' : e = WsEntry.link n := by simpa using he
      rw [he']
  · intro hh
    rw [hhid n hh]
    rfl

/-- C3 witness: a source directory with `notes.md` and `.git` stages to a
workspace holding exactly the link `notes.md` and no `.git`. -/
theorem symlink_items_C3_witness :
    ([("notes.md", WsEntry.link "notes.md")] : Workspace).lookup "notes.md" =
        some (WsEntry.link "notes.md") ∧
    ([("notes.md", WsEntry.link "notes.md")] : Workspace).lookup ".git" =
        none := by
  have h : symlink_items [("notes.md", "doc"), (".git", "repo")]
      ([("notes.md", "doc"), (".git", "repo")].map Prod.fst) [] =
      some [("notes.md", WsEntry.link "notes.md")] := by rfl
  exact ⟨(symlink_items_C3 _ _ "notes.md" h).1 (by simp) rfl,
    (symlink_items_C3 _ _ ".git" h).2 rfl⟩

/-! ## Process supervisor and teardown (cli.py lines 131-217)

The child handle is `Option Proc`: `none` is the Python variable `proc`
holding `None`; a `Proc` with `running = true` is a child whose `poll()`
returns `None`.  `gracefulWithin5` says whether the child exits within the
5-second `wait` that follows `terminate()`.  OS-visible actions are
recorded in a trace. -/

structure Proc where
  running : Bool
  gracefulWithin5 : Bool
deriving DecidableEq, Repr

inductive Act
  | terminate   -- proc.terminate()
  | wait5       -- proc.wait(timeout=5)
  | kill        -- proc.kill()
  | rmtree      -- shutil.rmtree(tmpdir, ignore_errors=True)
deriving DecidableEq, Repr

/-- The actions that touch the child process (rather than the
filesystem). -/
def isProcAct : Act → Bool
  | Act.rmtree => false
  | _ => true

structure CleanupOut where
  proc : Option Proc
  tmpdirExists : Bool
  acts : List Act
deriving DecidableEq, Repr

/-- The `cleanup` closure (cli.py 137-146): when the handle holds a
running child, terminate it, wait up to 5 seconds, kill it if still
alive, and clear the handle; then remove the workspace tree with
`ignore_errors=True` — the removal never raises and the directory is
gone afterwards. -/
def cleanup (proc : Option Proc) : CleanupOut :=
  match proc with
  | some c =>
    if c.running then
      { proc := none, tmpdirExists := false,
        acts :=
          (if c.gracefulWithin5 then [Act.terminate, Act.wait5]
           else [Act.terminate, Act.wait5, Act.kill]) ++ [Act.rmtree] }
    else
      { proc := some c, tmpdirExists := false, acts := [Act.rmtree] }
  | none => { proc := none, tmpdirExists := false, acts := [Act.rmtree] }

structure ExitOut where
  proc : Option Proc
  tmpdirExists : Bool
  acts : List Act
  exitCode : Int
deriving DecidableEq, Repr

/-- `cleanup_and_exit` (cli.py 148-150), the handler registered for the
interrupt and termination signals: run `cleanup`, then `sys.exit(0)`. -/
def cleanup_and_exit (proc : Option Proc) : ExitOut :=
  { proc := (cleanup proc).proc, tmpdirExists := (cleanup proc).tmpdirExists,
    acts := (cleanup proc).acts, exitCode := 0 }

/-- Abstract contents of a directory tree (the build output). -/
abbrev DirContents := List (String × String)

/-- The resolved output location of build mode (cli.py 182-184):
`Path(args.output) if args.output else Path.cwd() / "_build" / "html"`. -/
def resolve_output (outputArg : Option String) (cwd : String) : String :=
  match outputArg with
  | some o => o
  | none => cwd ++ "/_build/html"

/-- The ways an invocation that reached workspace creation (`mkdtemp`,
cli.py 134) can continue, as the environment decides them; each
constructor carries the data its path consumes.  `exnInTry` is an
`Exception` raised anywhere in the try body (staging or supervision),
with the handle's value at that moment; `mystMissing` is `find_myst`
calling `sys.exit(1)`; `servePortExhausted` is `find_free_port` calling
`sys.exit(1)` in serve mode; `serveRun` is the child exiting on its own;
`signalStop` is SIGINT/SIGTERM arriving with the given handle value. -/
inductive ExitPath
  | exnInTry (msg : String) (procAt : Option Proc)
  | mystMissing
  | buildRun (code : Int) (buildOut : DirContents)
      (preExisting : Option DirContents) (outputArg : Option String)
      (cwd : String)
  | servePortExhausted (portStart : Nat)
  | serveRun (childExit : Int)
  | signalStop (procAt : Option Proc)
deriving Repr

structure RunOut where
  exitCode : Int
  tmpdirExists : Bool
  proc : Option Proc
  acts : List Act
  stderr : List String
  outputPath : Option String
  outputContents : Option DirContents
deriving Repr

/-- `main` from workspace creation to process exit (cli.py 134-217).
`except Exception` prints and swallows; `SystemExit` (from `sys.exit`) is
not an `Exception` and passes through; the `finally` block runs `cleanup`
on every path.  Build mode uses `subprocess.run`, so the handle stays
`None` and `sys.exit(result.returncode)` sets the exit code; a successful
build first removes any pre-existing output directory and copies
`_build/html` there.  Serve mode's `proc.wait()` returning on its own
leaves a non-running handle for the final cleanup and `main` returns
normally (exit code 0).  A signal runs `cleanup_and_exit`, whose
`sys.exit(0)` unwinds through the `finally`, running `cleanup` a second
time on the cleared handle. -/
def run (sc : ExitPath) : RunOut :=
  match sc with
  | ExitPath.exnInTry msg procAt =>
    let c := cleanup procAt
    { exitCode := 0, tmpdirExists := c.tmpdirExists, proc := c.proc,
      acts := c.acts, stderr := ["Error: " ++ msg],
      outputPath := none, outputContents := none }
  | ExitPath.mystMissing =>
    let c := cleanup none
    { exitCode := 1, tmpdirExists := c.tmpdirExists, proc := c.proc,
      acts := c.acts,
      stderr := ["Error: myst not found. Install with: npm install -g mystmd"],
      outputPath := none, outputContents := none }
  | ExitPath.buildRun code buildOut preExisting outputArg cwd =>
    let c := cleanup none
    { exitCode := code, tmpdirExists := c.tmpdirExists, proc := c.proc,
      acts := c.acts, stderr := [],
      outputPath := some (resolve_output outputArg cwd),
      outputContents := if code = 0 then some buildOut else preExisting }
  | ExitPath.servePortExhausted portStart =>
    let c := cleanup none
    { exitCode := 1, tmpdirExists := c.tmpdirExists, proc := c.proc,
      acts := c.acts,
      stderr := ["Error: no free port found in range " ++
        toString portStart ++ "-" ++ toString (portStart + 50)],
      outputPath := none, outputContents := none }
  | ExitPath.serveRun _ =>
    -- the child's own exit status is read by neither wait() nor cleanup
    let c := cleanup (some { running := false, gracefulWithin5 := true })
    { exitCode := 0, tmpdirExists := c.tmpdirExists, proc := c.proc,
      acts := c.acts, stderr := [],
      outputPath := none, outputContents := none }
  | ExitPath.signalStop procAt =>
    let c1 := cleanup_and_exit procAt
    let c2 := cleanup c1.proc
    { exitCode := c1.exitCode, tmpdirExists := c2.tmpdirExists,
      proc := c2.proc, acts := c1.acts ++ c2.acts, stderr := [],
      outputPath := none, outputContents := none }

/-! ### Teardown lemmas and claim theorems -/

theorem cleanup_tmp (p : Option Proc) : (cleanup p).tmpdirExists = false := by
  cases p with
  | none => rfl
  | some c =>
    unfold cleanup
    by_cases hr : c.running = true <;> simp [hr]

theorem cleanup_rmtree (p : Option Proc) : Act.rmtree ∈ (cleanup p).acts := by
  cases p with
  | none => simp [cleanup]
  | some c =>
    unfold cleanup
    by_cases hr : c.running = true <;>
      by_cases hg : c.gracefulWithin5 = true <;> simp [hr, hg]

/-- C1: every exit path of an invocation that reached workspace creation —
normal serve-mode success, build-mode success or failure, an uncaught
exception, a missing renderer or exhausted port range, or a signal — ends
with the workspace directory gone, its best-effort removal having been
attempted (`rmtree` is in the action trace on every path). -/
theorem run_C1 (sc : ExitPath) :
    (run sc).tmpdirExists = false ∧ Act.rmtree ∈ (run sc).acts := by
  cases sc with
  | exnInTry msg procAt => exact ⟨cleanup_tmp procAt, cleanup_rmtree procAt⟩
  | mystMissing => exact ⟨cleanup_tmp none, cleanup_rmtree none⟩
  | buildRun code buildOut preExisting outputArg cwd =>
    exact ⟨cleanup_tmp none, cleanup_rmtree none⟩
  | servePortExhausted portStart =>
    exact ⟨cleanup_tmp none, cleanup_rmtree none⟩
  | serveRun childExit =>
    exact ⟨cleanup_tmp _, cleanup_rmtree _⟩
  | signalStop procAt =>
    exact ⟨cleanup_tmp _, List.mem_append_right _ (cleanup_rmtree _)⟩

/-- C6: the signal-triggered teardown on a running child terminates it,
waits up to 5 seconds, kills it only when it did not stop in time, clears
the handle, removes the workspace, and exits 0; re-running the routine
once the handle is cleared performs no process action. -/
theorem cleanup_and_exit_C6 (c : Proc) (h : c.running = true) :
    (cleanup_and_exit (some c)).exitCode = 0 ∧
    (cleanup_and_exit (some c)).tmpdirExists = false ∧
    (cleanup_and_exit (some c)).proc = none ∧
    (cleanup_and_exit (some c)).acts =
      (if c.gracefulWithin5 then [Act.terminate, Act.wait5]
       else [Act.terminate, Act.wait5, Act.kill]) ++ [Act.rmtree] ∧
    (cleanup_and_exit none).acts.filter isProcAct = [] := by
  unfold cleanup_and_exit cleanup
  simp [h]
  rfl

/-- C6 witness: a running child that ignores the graceful request is
terminated, waited on, killed, the workspace removed, exit code 0; the
repeat invocation on the cleared handle touches no process. -/
theorem cleanup_and_exit_C6_witness :
    (cleanup_and_exit (some ⟨true, false⟩)).exitCode = 0 ∧
    (cleanup_and_exit (some ⟨true, false⟩)).tmpdirExists = false ∧
    (cleanup_and_exit (some ⟨true, false⟩)).proc = none ∧
    (cleanup_and_exit (some ⟨true, false⟩)).acts =
      (if (Proc.mk true false).gracefulWithin5 then [Act.terminate, Act.wait5]
       else [Act.terminate, Act.wait5, Act.kill]) ++ [Act.rmtree] ∧
    (cleanup_and_exit none).acts.filter isProcAct = [] :=
  cleanup_and_exit_C6 ⟨true, false⟩ rfl

/-- C5: in build mode the tool's exit code always equals the renderer's,
and a renderer exit code of 0 ends with the resolved output location
(the explicit output argument, else `<cwd>/_build/html`) holding exactly
the workspace's `_build/html` contents, whatever was there before. -/
theorem run_C5 (code : Int) (buildOut : DirContents)
    (preExisting : Option DirContents) (outputArg : Option String)
    (cwd : String) :
    (run (ExitPath.buildRun code buildOut preExisting outputArg cwd)).exitCode
        = code ∧
    (run (ExitPath.buildRun 0 buildOut preExisting outputArg cwd)).outputContents
        = some buildOut ∧
    (run (ExitPath.buildRun 0 buildOut preExisting outputArg cwd)).outputPath
        = some (resolve_output outputArg cwd) := by
  refine ⟨rfl, ?_, rfl⟩
  simp [run]

/-- C10: serve mode exits 0 whatever the child's own exit status; an
exception after workspace creation is printed to stderr and still exits 0;
a nonzero exit only arises from build mode (mirroring the renderer), the
missing renderer, or port-search exhaustion. -/
theorem run_C10 (childExit : Int) (msg : String) (procAt : Option Proc)
    (sc : ExitPath) :
    (run (ExitPath.serveRun childExit)).exitCode = 0 ∧
    (run (ExitPath.exnInTry msg procAt)).exitCode = 0 ∧
    ("Error: " ++ msg) ∈ (run (ExitPath.exnInTry msg procAt)).stderr ∧
    ((run sc).exitCode = 0 ∨ sc = ExitPath.mystMissing ∨
      (∃ p, sc = ExitPath.servePortExhausted p) ∨
      (∃ c b pre oa cw, sc = ExitPath.buildRun c b pre oa cw)) := by
  refine ⟨rfl, rfl, by simp [run], ?_⟩
  cases sc with
  | exnInTry m p => left; rfl
  | mystMissing => right; left; rfl
  | buildRun c b pre oa cw =>
    right; right; right
    exact ⟨c, b, pre, oa, cw, rfl⟩
  | servePortExhausted p =>
    right; right; left
    exact ⟨p, rfl⟩
  | serveRun ce => left; rfl
  | signalStop p => left; rfl

end MystPreview
